import Mathlib

/-!
Shallow embedding of the job orchestration core of the OSC VMAF Studio
backend (server/index.ts): job lifecycle tracking, metadata store helpers,
VMAF result parsing, and the relevant HTTP handler logic.  JavaScript
strings are modelled as lists of characters (`Str`), JavaScript string
truthiness as a non-emptiness test, numbers carried by result documents as
rationals, and the asynchronous control flow of the analyze handler as a
sequential program driven by an oracle that fixes the outcome of every
external call (token acquisition, task submission, metadata writes, and
the sequence of runner statuses observed by the poll loop).
-/

/-- JavaScript strings, modelled as lists of characters. -/
abbrev Str := List Char

/-- Job status enumeration from the JobMetadata interface of the server. -/
inductive JobStatus : Type
  | queued
  | running
  | completed
  | failed
deriving DecidableEq

/-- JavaScript truthiness for an optional string: undefined and the empty
string are falsy. -/
def jsTruthy : Option Str → Option Str
  | some s => if s = [] then none else some s
  | none => none

/-- JS String.lastIndexOf for a single character: index of the last
occurrence, or none where JS returns -1. -/
def lastIndexOfChar (c : Char) : Str → Option Nat
  | [] => none
  | a :: rest =>
    match lastIndexOfChar c rest with
    | some i => some (i + 1)
    | none => if a = c then some 0 else none

/-- The expression resultKey.substring(0, resultKey.lastIndexOf('/') + 1)
as written in the server; when lastIndexOf returns -1 the substring is
empty. -/
def jsFolderOf (resultKey : Str) : Str :=
  match lastIndexOfChar '/' resultKey with
  | some i => resultKey.take (i + 1)
  | none => []

/-- Raw-result storage key as derived by the score fetch inside the poll
loop of POST /api/analyze (lines 900-901 of server/index.ts). -/
def scoreFetchResultFileKey (resultKey oscJobName : Str) : Str :=
  jsFolderOf resultKey ++ oscJobName ++ (".json".data)

/-- Raw-result storage key as derived by GET /api/results/:jobId
(lines 1077-1078 of server/index.ts). -/
def resultsEndpointResultFileKey (resultKey oscJobName : Str) : Str :=
  jsFolderOf resultKey ++ oscJobName ++ (".json".data)

/-- Raw-result storage key as derived by GET /api/results/:jobId/raw
(lines 1196-1197 of server/index.ts). -/
def rawEndpointResultFileKey (resultKey oscJobName : Str) : Str :=
  jsFolderOf resultKey ++ oscJobName ++ (".json".data)

/-- The wording of the spec for the folder part of the raw-result key: the
portion of the key up to and including its last '/', empty when the key
holds no '/'. -/
def folderUpToLastSlash : Str → Str
  | [] => []
  | a :: rest =>
    if '/' ∈ rest then a :: folderUpToLastSlash rest
    else if a = '/' then ['/'] else []

/-- Pooled statistics record carried by every discovered metric of a raw
VMAF document. -/
structure MetricStats where
  min : ℚ
  max : ℚ
  mean : ℚ
  harmonic_mean : ℚ
deriving DecidableEq

/-- One frame of a raw VMAF document: a frame number and a map from metric
name to value. -/
structure RawFrame where
  frameNum : Nat
  metrics : List (Str × ℚ)
deriving DecidableEq

/-- A raw VMAF report document: pooled metrics keyed by name, plus an
optional frame sequence. -/
structure RawVmafDoc where
  pooled_metrics : List (Str × MetricStats)
  frames : Option (List RawFrame)
deriving DecidableEq

/-- One parsed frame of the results payload: frame number plus the values
of the discovered metrics present in that frame. -/
structure FrameOut where
  frameNum : Nat
  metrics : List (Str × ℚ)
deriving DecidableEq

/-- Parsed-results payload of GET /api/results/:jobId. -/
structure ParsedResults where
  vmafScore : ℚ
  frames : List FrameOut
  vmafMetrics : List (Str × MetricStats)
  primaryMetric : Option Str
deriving DecidableEq

/-- The parsing step of GET /api/results/:jobId (lines 1099-1134 of
server/index.ts): discover pooled metric names by the vmaf underscore
name filter, copy their statistics, project each frame onto the
discovered metrics, pick vmaf underscore hd as primary when discovered and
the first discovered metric otherwise, and report the mean of the primary
metric (zero when there is none, mirroring the JS fallback). -/
def parseVmafResults (doc : RawVmafDoc) : ParsedResults :=
  let pooledMetrics := doc.pooled_metrics
  let vmafMetricKeys :=
    (pooledMetrics.map Prod.fst).filter (fun k => k.take 5 == "vmaf_".data)
  let vmafMetrics :=
    vmafMetricKeys.filterMap (fun k => (pooledMetrics.lookup k).map (fun v => (k, v)))
  let frames :=
    (doc.frames.getD []).map (fun f =>
      { frameNum := f.frameNum
        metrics :=
          vmafMetricKeys.filterMap (fun k => (f.metrics.lookup k).map (fun v => (k, v)))
        : FrameOut })
  let primaryMetric :=
    if vmafMetricKeys.contains ("vmaf_hd".data) then some ("vmaf_hd".data)
    else vmafMetricKeys.head?
  let primaryScore :=
    match primaryMetric.bind (fun k => (vmafMetrics.lookup k).map MetricStats.mean) with
    | some v => if v = 0 then 0 else v
    | none => 0
  { vmafScore := primaryScore
    frames := frames
    vmafMetrics := vmafMetrics
    primaryMetric := primaryMetric }

/-- Storage backend selector of the S3Config interface. -/
inductive StorageType : Type
  | aws
  | s3compatible
deriving DecidableEq

/-- In-memory server configuration (the S3Config interface of the server).
Fields the code can set to undefined are optional; the three secrets are
plain strings whose empty value plays the role of the unset state. -/
structure ServerConfig where
  storageType : StorageType
  endpoint : Option Str
  region : Option Str
  bucket : Option Str
  accessKey : Str
  secretKey : Str
  oscToken : Str
deriving DecidableEq

/-- Response body of GET /api/config. -/
structure ConfigGetResponse where
  storageType : StorageType
  endpoint : Option Str
  region : Option Str
  bucket : Option Str
  accessKey : Str
  secretKey : Str
  oscToken : Str
deriving DecidableEq

/-- GET /api/config (lines 323-333 of server/index.ts): secrets are
rendered as the fixed mask when truthy and as the empty string
otherwise. -/
def getConfigHandler (c : ServerConfig) : ConfigGetResponse :=
  { storageType := c.storageType
    endpoint := c.endpoint
    region := c.region
    bucket := c.bucket
    accessKey := if c.accessKey ≠ [] then "****".data else []
    secretKey := if c.secretKey ≠ [] then "****".data else []
    oscToken := if c.oscToken ≠ [] then "****".data else [] }

/-- Request body of POST /api/config; absent fields are none. -/
structure ConfigPostBody where
  storageType : Option StorageType
  endpoint : Option Str
  region : Option Str
  bucket : Option Str
  accessKey : Option Str
  secretKey : Option Str
  oscToken : Option Str
deriving DecidableEq

/-- The regular expression replace of trailing slashes applied to bucket
names by POST /api/config. -/
def stripTrailingSlashes (s : Str) : Str :=
  (s.reverse.dropWhile (fun c => c = '/')).reverse

/-- Bucket-name cleanup of POST /api/config: strip a leading s3 scheme
marker, then trailing slashes. -/
def cleanBucketName (b : Str) : Str :=
  let b1 := if b.take 5 = "s3://".data then b.drop 5 else b
  stripTrailingSlashes b1

/-- POST /api/config (lines 336-365 of server/index.ts): partial update
of the in-memory configuration; a storage-type switch clears the bucket or
endpoint, bucket names are cleaned, and a secret equal to the mask is
ignored. -/
def postConfigHandler (c : ServerConfig) (body : ConfigPostBody) : ServerConfig :=
  let c1 :=
    match body.storageType with
    | some st =>
      let ca := { c with storageType := st }
      match st with
      | StorageType.s3compatible => { ca with bucket := none }
      | StorageType.aws => { ca with endpoint := none }
    | none => c
  let c2 := match body.endpoint with
    | some e => { c1 with endpoint := some e }
    | none => c1
  let c3 := match body.region with
    | some r => { c2 with region := some r }
    | none => c2
  let c4 := match body.bucket with
    | some b => { c3 with bucket := some (cleanBucketName b) }
    | none => c3
  let c5 := match body.accessKey with
    | some a => if a = "****".data then c4 else { c4 with accessKey := a }
    | none => c4
  let c6 := match body.secretKey with
    | some s => if s = "****".data then c5 else { c5 with secretKey := s }
    | none => c5
  match body.oscToken with
  | some t => if t = "****".data then c6 else { c6 with oscToken := t }
  | none => c6

/-- Durable job metadata record (the JobMetadata interface of the server).
The createdAt ISO timestamp is modelled by its epoch value, and completedAt
by whether it has been set. -/
structure JobMeta where
  jobId : Str
  status : JobStatus
  referenceKey : Str
  distortedKey : Str
  referenceName : Str
  distortedName : Str
  resultKey : Str
  bucket : Str
  oscJobName : Option Str
  error : Option Str
  createdAt : Nat
  completedAt : Bool
  vmafScore : Option ℚ
  description : Option Str
deriving DecidableEq

/-- Backward-compatibility step of loadJobMetadata: a loaded record with a
missing bucket field gets the bucket it was loaded from. -/
def withBucket (bucket : Str) (m : JobMeta) : JobMeta :=
  if m.bucket = [] then { m with bucket := bucket } else m

/-- loadJobMetadata (lines 429-450 of server/index.ts): read the object at
jobs slash jobId dot json; the objects map already folds retrieval and
parse failures into none, and the bucket field is synthesized when
missing. -/
def loadJobMeta (objects : Str → Option JobMeta) (bucket jobId : Str) : Option JobMeta :=
  (objects ("jobs/".data ++ jobId ++ ".json".data)).map (withBucket bucket)

/-- JS str.replace with a literal pattern and the empty replacement:
removes the first occurrence of the pattern only. -/
def removeFirstOcc (pat : Str) : Str → Str
  | [] => []
  | a :: rest =>
    if (a :: rest).take pat.length = pat then (a :: rest).drop pat.length
    else a :: removeFirstOcc pat rest

/-- listJobMetadata (lines 453-478 of server/index.ts): enumerate the keys
under the jobs prefix (none models an enumeration error, which yields the
empty list), keep the keys with the dot json suffix, derive each job
identifier by removing the first occurrences of the prefix and of the
suffix, load every derived record, drop the ones that fail to load, and
sort by creation time, newest first. -/
def listJobMeta (objects : Str → Option JobMeta) (bucket : Str)
    (listing : Option (List Str)) : List JobMeta :=
  match listing with
  | none => []
  | some keys =>
    let collected := keys.filterMap (fun k =>
      if (".json".data) <:+ k then
        loadJobMeta objects bucket
          (removeFirstOcc (".json".data) (removeFirstOcc ("jobs/".data) k))
      else none)
    List.insertionSort (fun a b => b.createdAt ≤ a.createdAt) collected

/-- In-memory registry entry of the jobs map of the server, including the
captured configuration. -/
structure MemJob where
  status : JobStatus
  referenceKey : Str
  distortedKey : Str
  resultKey : Str
  bucket : Str
  config : ServerConfig
  oscJobName : Option Str
  error : Option Str
  referenceName : Str
  distortedName : Str
  createdAt : Nat
  completedAt : Bool
  description : Option Str
deriving DecidableEq

/-- Response of GET /api/jobs/:jobId/status. -/
structure StatusResponse where
  code : Nat
  jobId : Option Str
  status : Option JobStatus
  oscJobStatus : Option Str
  error : Option Str
deriving DecidableEq

/-- GET /api/jobs/:jobId/status (lines 987-1023 of server/index.ts): look
the identifier up in the in-memory jobs map only; absent means 404.  When
the entry carries a truthy external job name (the captured config is
always present), the live runner status is fetched; oscFetch is the oracle
for that call, none meaning it threw, which the outer catch turns into a
500. -/
def getJobStatusHandler (registry : Str → Option MemJob) (oscFetch : Option Str)
    (jobId : Str) : StatusResponse :=
  match registry jobId with
  | none =>
    { code := 404, jobId := none, status := none, oscJobStatus := none
      error := some ("Job not found".data) }
  | some job =>
    match jsTruthy job.oscJobName with
    | some _ =>
      match oscFetch with
      | some st =>
        { code := 200, jobId := some jobId, status := some job.status
          oscJobStatus := some st, error := none }
      | none =>
        { code := 500, jobId := none, status := none, oscJobStatus := none
          error := some ("Failed to fetch job status".data) }
    | none =>
      { code := 200, jobId := some jobId, status := some job.status
        oscJobStatus := none, error := job.error }

/-- Outcome of DELETE /api/jobs/:jobId: response data plus the states of
the registry and of the per-bucket object store after the call. -/
structure DeleteOutcome where
  code : Nat
  success : Bool
  registry : Str → Option MemJob
  objects : Str → Str → Option JobMeta
  searchBucket : Str
  deleteBucket : Str
  attemptedResultDelete : Bool

/-- The raw-result object key DELETE /api/jobs/:jobId will try to delete:
present exactly when a metadata record was found carrying a truthy
external job name and a non-empty result key (lines 1281-1294 of
server/index.ts). -/
def resultDeleteKeyOf (metadata : Option JobMeta) : Option Str :=
  match metadata with
  | some m =>
    match jsTruthy m.oscJobName with
    | some n =>
      if m.resultKey = [] then none
      else some (jsFolderOf m.resultKey ++ n ++ ".json".data)
    | none => none
  | none => none

/-- Bucket fallback of DELETE /api/jobs/:jobId: a truthy query bucket,
else the configured default bucket. -/
def fallbackBucket (queryBucket : Option Str) (configBucket : Str) : Str :=
  match jsTruthy queryBucket with
  | some b => b
  | none => configBucket

/-- DELETE /api/jobs/:jobId (lines 1250-1316 of server/index.ts): pick the
bucket from the in-memory entry, the query, or the default; load the
metadata record; best-effort delete the raw result object when the record
carries a truthy external job name and result key, then best-effort delete
the metadata object (the two ok flags are the oracle for those calls, a
false meaning the storage delete threw and was caught); finally drop the
in-memory entry and answer success. -/
def deleteJobHandler (registry : Str → Option MemJob)
    (objects : Str → Str → Option JobMeta) (configBucket : Str)
    (queryBucket : Option Str) (deleteResultOk deleteMetaOk : Bool)
    (jobId : Str) : DeleteOutcome :=
  let inMemoryJob := registry jobId
  let targetBucket0 :=
    match inMemoryJob with
    | some j => if j.bucket = [] then fallbackBucket queryBucket configBucket else j.bucket
    | none => fallbackBucket queryBucket configBucket
  let metadata := loadJobMeta (objects targetBucket0) targetBucket0 jobId
  let targetBucket :=
    match metadata with
    | some m => if m.bucket = [] then targetBucket0 else m.bucket
    | none => targetBucket0
  let resultDelete := resultDeleteKeyOf metadata
  let metadataKey := "jobs/".data ++ jobId ++ ".json".data
  let objects1 : Str → Str → Option JobMeta :=
    match resultDelete with
    | some rk =>
      if deleteResultOk then
        fun b k => if b = targetBucket ∧ k = rk then none else objects b k
      else objects
    | none => objects
  let objects2 : Str → Str → Option JobMeta :=
    if deleteMetaOk then
      fun b k => if b = targetBucket ∧ k = metadataKey then none else objects1 b k
    else objects1
  { code := 200
    success := true
    registry := fun i => if i = jobId then none else registry i
    objects := objects2
    searchBucket := targetBucket0
    deleteBucket := targetBucket
    attemptedResultDelete := resultDelete.isSome }

/-- JS referenceKey.split('/').pop() with the whole key as fallback. -/
def lastPathSegment (s : Str) : Str :=
  match lastIndexOfChar '/' s with
  | some i => let seg := s.drop (i + 1); if seg = [] then s else seg
  | none => s

/-- Request body of POST /api/analyze. -/
structure AnalyzeReq where
  referenceKey : Str
  distortedKey : Str
  folder : Option Str
  bucket : Option Str
  description : Option Str
deriving DecidableEq

/-- Oracle fixing the outcome of every external call made by POST
/api/analyze and its background task: token acquisition, task submission
and the returned external name, every metadata write, and the successive
runner statuses the poll loop observes (a finite list; an exhausted list
models a loop still polling). -/
structure AnalyzeOracle where
  tokenOk : Bool
  submitOk : Bool
  oscName : Str
  saveAfterSubmitOk : Bool
  pollStatuses : List Str
  saveCompletedOk : Bool
  saveCatchOk : Bool
  saveTokenFailOk : Bool
deriving DecidableEq

/-- State threaded through the poll loop: the registry entry of the job,
the consecutive-deduplicated history of its registry status, the metadata
writes attempted so far (status written, write succeeded), and the number
of runner status fetches. -/
structure PollState where
  entry : MemJob
  trace : List JobStatus
  saves : List (JobStatus × Bool)
  polls : Nat
deriving DecidableEq

/-- Record a registry status into a consecutive-deduplicated history. -/
def pushStatus (tr : List JobStatus) (s : JobStatus) : List JobStatus :=
  if tr.getLast? = some s then tr else tr ++ [s]

/-- The while loop of the background task of POST /api/analyze (lines
876-942 of server/index.ts), one recursion step per runner status fetch.
A Running runner status advances a still-queued entry to running; a
success synonym marks the entry completed (the score fetch is wrapped in
its own try and cannot touch the registry) and then writes the completed
metadata, a failed write escaping to the outer catch; a failure synonym
throws.  The second component is the error carried out of the loop, none
meaning the loop finished or is still polling. -/
def pollLoop (saveCompletedOk : Bool) :
    List Str → PollState → PollState × Option Str
  | [], st => (st, none)
  | s :: rest, st =>
    let st1 :=
      if s = "Running".data ∧ st.entry.status = JobStatus.queued then
        { entry := { st.entry with status := JobStatus.running }
          trace := pushStatus st.trace JobStatus.running
          saves := st.saves
          polls := st.polls + 1 }
      else { st with polls := st.polls + 1 }
    if s = "SuccessCriteriaMet".data ∨ s = "Completed".data ∨ s = "Success".data then
      let st2 : PollState :=
        { entry := { st1.entry with status := JobStatus.completed, completedAt := true }
          trace := pushStatus st1.trace JobStatus.completed
          saves := st1.saves ++ [(JobStatus.completed, saveCompletedOk)]
          polls := st1.polls }
      if saveCompletedOk then (st2, none)
      else (st2, some ("metadata save failed".data))
    else if s = "Failed".data ∨ s = "Error".data then
      (st1, some ("Job failed with status: ".data ++ s))
    else
      pollLoop saveCompletedOk rest st1

/-- Observable outcome of POST /api/analyze: the response, the registry
status at the instant the response is sent, and the full effect of the
background task on the registry and the metadata store. -/
structure AnalyzeOutcome where
  respCode : Nat
  respStatus : Option JobStatus
  statusAtResponse : JobStatus
  trace : List JobStatus
  finalEntry : MemJob
  saves : List (JobStatus × Bool)
  submitAttempted : Bool
  pollCount : Nat
deriving DecidableEq

/-- Deterministic result key of POST /api/analyze: folder slash results
slash jobId dot json when a truthy folder is given, else results slash
jobId dot json. -/
def resultKeyOf (folder : Option Str) (jobId : Str) : Str :=
  match jsTruthy folder with
  | some f => f ++ "/results/".data ++ jobId ++ ".json".data
  | none => "results/".data ++ jobId ++ ".json".data

/-- Registry status history after the poll loop: an error escaping the
loop reaches the catch of the background task, which records failed. -/
def afterPoll (run : PollState × Option Str) : List JobStatus :=
  match run.2 with
  | none => run.1.trace
  | some _ => pushStatus run.1.trace JobStatus.failed

/-- Registry entry after the poll loop: an error escaping the loop makes
the catch overwrite the status with failed and record the message. -/
def afterPollEntry (run : PollState × Option Str) : MemJob :=
  match run.2 with
  | none => run.1.entry
  | some msg => { run.1.entry with status := JobStatus.failed, error := some msg }

/-- Metadata writes after the poll loop: the catch additionally attempts
to write the failed record. -/
def afterPollSaves (saveCatchOk : Bool) (run : PollState × Option Str) :
    List (JobStatus × Bool) :=
  match run.2 with
  | none => run.1.saves
  | some _ => run.1.saves ++ [(JobStatus.failed, saveCatchOk)]

/-- POST /api/analyze together with its background task (lines 757-984 of
server/index.ts), sequentialized: the entry is registered queued, then set
running in the handler itself; a token failure marks the job failed,
writes the failed record (its own failure only logged) and answers 400;
otherwise the background task starts and suspends at the submission call,
the handler answers 200 with the literal status queued while the registry
already holds running, and the background task then submits, records the
external name, writes the running record and polls; every error escaping
to its catch marks the job failed and best-effort writes the failed
record. -/
def analyzeHandler (o : AnalyzeOracle) (req : AnalyzeReq) (jobId : Str)
    (now : Nat) (cfg : ServerConfig) : AnalyzeOutcome :=
  let targetBucket :=
    match jsTruthy req.bucket with
    | some b => b
    | none => cfg.bucket.getD []
  let resultKey := resultKeyOf req.folder jobId
  let e0 : MemJob :=
    { status := JobStatus.queued
      referenceKey := req.referenceKey
      distortedKey := req.distortedKey
      resultKey := resultKey
      bucket := targetBucket
      config := cfg
      oscJobName := none
      error := none
      referenceName := lastPathSegment req.referenceKey
      distortedName := lastPathSegment req.distortedKey
      createdAt := now
      completedAt := false
      description := req.description }
  let tr0 := pushStatus [] JobStatus.queued
  let e1 := { e0 with status := JobStatus.running }
  let tr1 := pushStatus tr0 JobStatus.running
  if o.tokenOk = false then
    let e2 := { e1 with
      status := JobStatus.failed
      error := some ("Invalid OSC token or service unavailable".data) }
    { respCode := 400
      respStatus := none
      statusAtResponse := JobStatus.failed
      trace := pushStatus tr1 JobStatus.failed
      finalEntry := e2
      saves := [(JobStatus.failed, o.saveTokenFailOk)]
      submitAttempted := false
      pollCount := 0 }
  else
    if o.submitOk = false then
      let e2 := { e1 with
        status := JobStatus.failed
        error := some ("job submission failed".data) }
      { respCode := 200
        respStatus := some JobStatus.queued
        statusAtResponse := JobStatus.running
        trace := pushStatus tr1 JobStatus.failed
        finalEntry := e2
        saves := [(JobStatus.failed, o.saveCatchOk)]
        submitAttempted := true
        pollCount := 0 }
    else
      let e2 := { e1 with oscJobName := some o.oscName }
      let tr2 := pushStatus tr1 e2.status
      if o.saveAfterSubmitOk = false then
        let e3 := { e2 with
          status := JobStatus.failed
          error := some ("metadata save failed".data) }
        { respCode := 200
          respStatus := some JobStatus.queued
          statusAtResponse := JobStatus.running
          trace := pushStatus tr2 JobStatus.failed
          finalEntry := e3
          saves := [(e2.status, false), (JobStatus.failed, o.saveCatchOk)]
          submitAttempted := true
          pollCount := 0 }
      else
        let st0 : PollState :=
          { entry := e2, trace := tr2, saves := [(e2.status, true)], polls := 0 }
        let run := pollLoop o.saveCompletedOk o.pollStatuses st0
        { respCode := 200
          respStatus := some JobStatus.queued
          statusAtResponse := JobStatus.running
          trace := afterPoll run
          finalEntry := afterPollEntry run
          saves := afterPollSaves o.saveCatchOk run
          submitAttempted := true
          pollCount := run.1.polls }

/-- The rational 91.2 as an explicit reduced fraction (456 over 5). -/
def q912 : ℚ := ⟨456, 5, by norm_num, by norm_num⟩

/-- The rational 90.5 as an explicit reduced fraction (181 over 2). -/
def q905 : ℚ := ⟨181, 2, by norm_num, by norm_num⟩

/-- The rational 87.1 as an explicit reduced fraction (871 over 10). -/
def q871 : ℚ := ⟨871, 10, by norm_num, by norm_num⟩

/-- The concrete raw document of the result-parsing scenario of the spec:
pooled metrics vmaf underscore hd and plain vmaf, and two frames each
carrying both metric values. -/
def doc7 : RawVmafDoc :=
  { pooled_metrics :=
      [("vmaf_hd".data, { min := 80, max := 98, mean := q912, harmonic_mean := q905 }),
       ("vmaf".data, { min := 75, max := 96, mean := 88, harmonic_mean := q871 })]
    frames := some
      [{ frameNum := 0, metrics := [("vmaf_hd".data, 92), ("vmaf".data, 89)] },
       { frameNum := 1, metrics := [("vmaf_hd".data, 90), ("vmaf".data, 87)] }] }

/-- A sample durable job record used by the concrete instances below. -/
def sampleMeta (jobId : Str) (createdAt : Nat) : JobMeta :=
  { jobId := jobId
    status := JobStatus.completed
    referenceKey := "ref.mp4".data
    distortedKey := "dist.mp4".data
    referenceName := "ref.mp4".data
    distortedName := "dist.mp4".data
    resultKey := "results/".data ++ jobId ++ ".json".data
    bucket := "demo".data
    oscJobName := some ("abc12".data)
    error := none
    createdAt := createdAt
    completedAt := true
    vmafScore := none
    description := none }

/-- A sample configuration used by the concrete instances below. -/
def cfgA : ServerConfig :=
  { storageType := StorageType.s3compatible
    endpoint := some ("https://minio.example".data)
    region := some ("eu-north-1".data)
    bucket := some ("vmaf-files".data)
    accessKey := "AK".data
    secretKey := "SK".data
    oscToken := "TOK".data }

/-- A sample in-memory registry entry used by the concrete instances
below. -/
def sampleMemJob (status : JobStatus) (oscJobName : Option Str) : MemJob :=
  { status := status
    referenceKey := "ref.mp4".data
    distortedKey := "dist.mp4".data
    resultKey := "results/job171.json".data
    bucket := "demo".data
    config := cfgA
    oscJobName := oscJobName
    error := none
    referenceName := "ref.mp4".data
    distortedName := "dist.mp4".data
    createdAt := 3
    completedAt := false
    description := none }

/-- A metadata store holding exactly the record of job171. -/
def c2Objects : Str → Option JobMeta := fun k =>
  if k = "jobs/job171.json".data then some (sampleMeta ("job171".data) 3) else none

/-- An empty in-memory registry. -/
def c2EmptyRegistry : Str → Option MemJob := fun _ => none

/-- A registry holding job171 as a completed entry without an external
name. -/
def c2Registry1 : Str → Option MemJob := fun i =>
  if i = "job171".data then some (sampleMemJob JobStatus.completed none) else none

/-- A sample analyze request. -/
def reqA : AnalyzeReq :=
  { referenceKey := "a.mp4".data
    distortedKey := "b.mp4".data
    folder := none
    bucket := some ("demo".data)
    description := none }

/-- Oracle of a fully successful run: token and submission succeed, the
runner reports Running then a success synonym, and every metadata write
lands. -/
def oAllGood : AnalyzeOracle :=
  { tokenOk := true
    submitOk := true
    oscName := "abc12".data
    saveAfterSubmitOk := true
    pollStatuses := ["Running".data, "Success".data]
    saveCompletedOk := true
    saveCatchOk := true
    saveTokenFailOk := true }

/-- Oracle of a run where the runner immediately reports success but the
write of the completed record fails. -/
def oSaveCompletedFails : AnalyzeOracle :=
  { oAllGood with pollStatuses := ["Success".data], saveCompletedOk := false }

/-- Oracle of a run where the runner reports Running and then success but
the write of the completed record fails. -/
def oPollSaveFails : AnalyzeOracle :=
  { oAllGood with saveCompletedOk := false }

/-- Oracle of a run where token acquisition fails. -/
def oTokenFail : AnalyzeOracle :=
  { oAllGood with tokenOk := false }

/-- The four keys under the jobs prefix of the listing scenario: three
loadable records and one corrupt object. -/
def c8Keys : List Str :=
  ["jobs/job300.json".data, "jobs/job100.json".data,
   "jobs/job200.json".data, "jobs/job400.json".data]

/-- The object store of the listing scenario: job400 is present in the
listing but fails to load or parse. -/
def c8Objects : Str → Option JobMeta := fun k =>
  if k = "jobs/job300.json".data then some (sampleMeta ("job300".data) 300)
  else if k = "jobs/job100.json".data then some (sampleMeta ("job100".data) 100)
  else if k = "jobs/job200.json".data then some (sampleMeta ("job200".data) 200)
  else none

/-- A configuration with non-empty secrets. -/
def c10A : ServerConfig :=
  { storageType := StorageType.aws
    endpoint := none
    region := some ("eu-north-1".data)
    bucket := some ("demo".data)
    accessKey := "AKIA111".data
    secretKey := "SEC111".data
    oscToken := "TOK111".data }

/-- The same configuration with different non-empty secrets. -/
def c10B : ServerConfig :=
  { c10A with
    accessKey := "AKIA222".data
    secretKey := "SEC222".data
    oscToken := "TOK222".data }

/-- A posted configuration body carrying the mask in every secret field,
as produced by posting back a fetched configuration. -/
def c10MaskBody : ConfigPostBody :=
  { storageType := none
    endpoint := none
    region := none
    bucket := none
    accessKey := some ("****".data)
    secretKey := some ("****".data)
    oscToken := some ("****".data) }

instance : IsTotal JobMeta (fun a b => b.createdAt ≤ a.createdAt) :=
  ⟨fun a b => le_total b.createdAt a.createdAt⟩

instance : IsTrans JobMeta (fun a b => b.createdAt ≤ a.createdAt) :=
  ⟨fun _ _ _ h1 h2 => le_trans h2 h1⟩

/-! Theorems. -/

theorem lastIndexOfChar_eq_none (c : Char) (s : Str) :
    lastIndexOfChar c s = none ↔ c ∉ s := by
  induction s with
  | nil => simp [lastIndexOfChar]
  | cons a rest ih =>
    simp only [lastIndexOfChar, List.mem_cons]
    cases h : lastIndexOfChar c rest with
    | some i =>
      have hmem : c ∈ rest := by
        by_contra hc
        have hnone := ih.mpr hc
        rw [h] at hnone
        cases hnone
      simp [hmem]
    | none =>
      have hni : c ∉ rest := ih.mp h
      by_cases hac : a = c
      · simp [hac]
      · simp only [if_neg hac]
        constructor
        · intro _ hor
          rcases hor with hca | hcr
          · exact hac hca.symm
          · exact hni hcr
        · intro _
          trivial

theorem jsFolderOf_eq_folderUpToLastSlash (s : Str) :
    jsFolderOf s = folderUpToLastSlash s := by
  induction s with
  | nil => rfl
  | cons a rest ih =>
    simp only [jsFolderOf, lastIndexOfChar, folderUpToLastSlash]
    cases h : lastIndexOfChar '/' rest with
    | some i =>
      have hmem : '/' ∈ rest := by
        by_contra hc
        have hnone := (lastIndexOfChar_eq_none '/' rest).mpr hc
        rw [h] at hnone
        cases hnone
      have hrest : rest.take (i + 1) = folderUpToLastSlash rest := by
        rw [← ih]
        simp [jsFolderOf, h]
      simp [hmem, List.take_succ_cons, hrest]
    | none =>
      have hmem : '/' ∉ rest := (lastIndexOfChar_eq_none '/' rest).mp h
      by_cases ha : a = '/'
      · simp [hmem, ha, List.take_succ_cons]
      · simp [hmem, ha]

/-- C6: the raw-result storage key is one and the same pure function of
the result key and the external job name at all three code sites (the
score fetch of the poll loop, the parsed-results endpoint, and the
raw-download endpoint), and it equals the prefix of the result key up to
and including its last slash, concatenated with the external job name and
the dot json suffix. -/
theorem rawResultKeyDerivation (resultKey oscJobName : Str) :
    scoreFetchResultFileKey resultKey oscJobName
      = resultsEndpointResultFileKey resultKey oscJobName ∧
    resultsEndpointResultFileKey resultKey oscJobName
      = rawEndpointResultFileKey resultKey oscJobName ∧
    scoreFetchResultFileKey resultKey oscJobName
      = folderUpToLastSlash resultKey ++ oscJobName ++ ".json".data := by
  refine ⟨rfl, rfl, ?_⟩
  simp [scoreFetchResultFileKey, jsFolderOf_eq_folderUpToLastSlash]

theorem q912_eq_div : q912 = 456 / 5 := by
  rw [q912, Rat.mk'_eq_divInt, Rat.divInt_eq_div]
  norm_num

theorem q905_eq_div : q905 = 181 / 2 := by
  rw [q905, Rat.mk'_eq_divInt, Rat.divInt_eq_div]
  norm_num

theorem q871_eq_div : q871 = 871 / 10 := by
  rw [q871, Rat.mk'_eq_divInt, Rat.divInt_eq_div]
  norm_num

/-- C7, counterexample: on the concrete document with pooled metrics
vmaf underscore hd and plain vmaf, the parser does pick vmaf underscore hd
as primary and does report 91.2, but the plain vmaf metric does not pass
the vmaf underscore name filter, so neither frame carries its value and it
is absent from the returned metric map — the claim that both metric values
are attached to both frames is false. -/
theorem parseDropsPlainVmafOnDoc7 :
    (parseVmafResults doc7).primaryMetric = some ("vmaf_hd".data) ∧
    (parseVmafResults doc7).vmafScore = q912 ∧
    (parseVmafResults doc7).frames.map (fun f => f.metrics.lookup ("vmaf".data))
      = [none, none] ∧
    (parseVmafResults doc7).vmafMetrics.lookup ("vmaf".data) = none := by
  decide

/-- C7, amended: on the concrete document, the parser selects vmaf
underscore hd as primary, reports primaryScore 91.2 (the aggregate mean of
that metric), and returns both frames by frame index with only the vmaf
underscore hd value attached; the plain vmaf metric is not discovered by
the vmaf underscore name filter and is omitted from the pooled metric map
and from every frame. -/
theorem parseVmafResultsOnDoc7 :
    parseVmafResults doc7 =
      { vmafScore := q912
        frames := [{ frameNum := 0, metrics := [("vmaf_hd".data, 92)] },
                   { frameNum := 1, metrics := [("vmaf_hd".data, 90)] }]
        vmafMetrics :=
          [("vmaf_hd".data,
            { min := 80, max := 98, mean := q912, harmonic_mean := q905 })]
        primaryMetric := some ("vmaf_hd".data) } := by
  decide

/-- C10: the configuration endpoint never discloses stored secrets.  The
GET response depends on the accessKey, secretKey and oscToken values only
through whether each is empty, and a POST whose accessKey, secretKey or
oscToken field equals the mask leaves the corresponding stored secret
unchanged, so posting back a previously fetched masked configuration
never clobbers credentials. -/
theorem configSecretsNeverDisclosed :
    (∀ c₁ c₂ : ServerConfig,
        c₁.storageType = c₂.storageType → c₁.endpoint = c₂.endpoint →
        c₁.region = c₂.region → c₁.bucket = c₂.bucket →
        (c₁.accessKey = [] ↔ c₂.accessKey = []) →
        (c₁.secretKey = [] ↔ c₂.secretKey = []) →
        (c₁.oscToken = [] ↔ c₂.oscToken = []) →
        getConfigHandler c₁ = getConfigHandler c₂) ∧
    (∀ c body, body.accessKey = some ("****".data) →
        (postConfigHandler c body).accessKey = c.accessKey) ∧
    (∀ c body, body.secretKey = some ("****".data) →
        (postConfigHandler c body).secretKey = c.secretKey) ∧
    (∀ c body, body.oscToken = some ("****".data) →
        (postConfigHandler c body).oscToken = c.oscToken) := by
  refine ⟨?_, ?_, ?_, ?_⟩
  · intro c₁ c₂ h1 h2 h3 h4 h5 h6 h7
    have ea : (if c₁.accessKey ≠ [] then "****".data else ([] : Str))
        = (if c₂.accessKey ≠ [] then "****".data else ([] : Str)) := by
      by_cases ha : c₁.accessKey = []
      · rw [if_neg (fun hne => hne ha), if_neg (fun hne => hne (h5.mp ha))]
      · rw [if_pos ha, if_pos (fun h2e => ha (h5.mpr h2e))]
    have eb : (if c₁.secretKey ≠ [] then "****".data else ([] : Str))
        = (if c₂.secretKey ≠ [] then "****".data else ([] : Str)) := by
      by_cases hb : c₁.secretKey = []
      · rw [if_neg (fun hne => hne hb), if_neg (fun hne => hne (h6.mp hb))]
      · rw [if_pos hb, if_pos (fun h2e => hb (h6.mpr h2e))]
    have ec : (if c₁.oscToken ≠ [] then "****".data else ([] : Str))
        = (if c₂.oscToken ≠ [] then "****".data else ([] : Str)) := by
      by_cases hc : c₁.oscToken = []
      · rw [if_neg (fun hne => hne hc), if_neg (fun hne => hne (h7.mp hc))]
      · rw [if_pos hc, if_pos (fun h2e => hc (h7.mpr h2e))]
    simp only [getConfigHandler, h1, h2, h3, h4, ea, eb, ec]
  · intro c body hmask
    rcases body with ⟨bst, be, br, bb, ba, bs, bt⟩
    simp only at hmask
    subst hmask
    rcases bst with _ | st
    all_goals try cases st
    all_goals rcases be with _ | e
    all_goals rcases br with _ | r
    all_goals rcases bb with _ | b
    all_goals rcases bs with _ | s
    all_goals rcases bt with _ | t
    all_goals simp [postConfigHandler, apply_ite]
  · intro c body hmask
    rcases body with ⟨bst, be, br, bb, ba, bs, bt⟩
    simp only at hmask
    subst hmask
    rcases bst with _ | st
    all_goals try cases st
    all_goals rcases be with _ | e
    all_goals rcases br with _ | r
    all_goals rcases bb with _ | b
    all_goals rcases ba with _ | a
    all_goals rcases bt with _ | t
    all_goals simp [postConfigHandler, apply_ite]
  · intro c body hmask
    rcases body with ⟨bst, be, br, bb, ba, bs, bt⟩
    simp only at hmask
    subst hmask
    rcases bst with _ | st
    all_goals try cases st
    all_goals rcases be with _ | e
    all_goals rcases br with _ | r
    all_goals rcases bb with _ | b
    all_goals rcases ba with _ | a
    all_goals rcases bs with _ | s
    all_goals simp [postConfigHandler, apply_ite]

/-- Witness for C10 at concrete configurations: two configurations that
differ only in their non-empty secrets produce identical GET responses,
and posting a fully masked body leaves every secret of the first
configuration unchanged. -/
theorem configSecretsNeverDisclosed_witness :
    getConfigHandler c10A = getConfigHandler c10B ∧
    (postConfigHandler c10A c10MaskBody).accessKey = c10A.accessKey ∧
    (postConfigHandler c10A c10MaskBody).secretKey = c10A.secretKey ∧
    (postConfigHandler c10A c10MaskBody).oscToken = c10A.oscToken := by
  refine ⟨configSecretsNeverDisclosed.1 c10A c10B rfl rfl rfl rfl
            (by decide) (by decide) (by decide),
          configSecretsNeverDisclosed.2.1 c10A c10MaskBody rfl,
          configSecretsNeverDisclosed.2.2.1 c10A c10MaskBody rfl,
          configSecretsNeverDisclosed.2.2.2 c10A c10MaskBody rfl⟩

/-- C2, counterexample: with an empty in-memory registry and a metadata
store that does hold the record of job171 (its load succeeds), the status
endpoint still answers 404 — the durable record is never consulted, so
the claim that a 404 arises exactly when the identifier is unknown in
both the Registry and the Metadata Store is false. -/
theorem statusEndpointIgnoresMetadataStore :
    loadJobMeta c2Objects ("demo".data) ("job171".data)
      = some (sampleMeta ("job171".data) 3) ∧
    (getJobStatusHandler c2EmptyRegistry (some ("Running".data)) ("job171".data)).code
      = 404 := by
  decide

/-- C2, amended: the status endpoint consults only the in-memory
Registry: the response is a 404 exactly when the identifier is absent
from the Registry, regardless of the Metadata Store; when the entry is
present without a truthy external job name, its stored status and error
are returned with a 200.  (With an external name, a live runner fetch is
made whose failure yields a 500 instead.) -/
theorem getJobStatusRegistryOnly (registry : Str → Option MemJob)
    (oscFetch : Option Str) (jobId : Str) :
    ((getJobStatusHandler registry oscFetch jobId).code = 404 ↔ registry jobId = none) ∧
    (∀ job, registry jobId = some job → jsTruthy job.oscJobName = none →
        (getJobStatusHandler registry oscFetch jobId).code = 200 ∧
        (getJobStatusHandler registry oscFetch jobId).status = some job.status ∧
        (getJobStatusHandler registry oscFetch jobId).error = job.error) := by
  constructor
  · cases hreg : registry jobId with
    | none => simp [getJobStatusHandler, hreg]
    | some job =>
      simp only [getJobStatusHandler, hreg]
      cases hn : jsTruthy job.oscJobName with
      | some n => cases oscFetch <;> simp
      | none => simp
  · intro job hj hn
    simp [getJobStatusHandler, hj, hn]

/-- Witness for the amended C2 at a concrete registry holding job171 as a
completed entry without an external name. -/
theorem getJobStatusRegistryOnly_witness :
    ((getJobStatusHandler c2Registry1 none ("job171".data)).code = 404
        ↔ c2Registry1 ("job171".data) = none) ∧
    (getJobStatusHandler c2Registry1 none ("job171".data)).status
      = some JobStatus.completed := by
  refine ⟨(getJobStatusRegistryOnly c2Registry1 none ("job171".data)).1, ?_⟩
  have h := (getJobStatusRegistryOnly c2Registry1 none ("job171".data)).2
      (sampleMemJob JobStatus.completed none) (by decide) (by decide)
  exact h.2.1

/-- Once the registry entry is running, the poll loop either leaves the
status history untouched (still polling, or a failure synonym throwing
out of the loop) or appends exactly one completed record, throwing out of
the loop exactly when the write of the completed record fails. -/
theorem pollLoop_spec (ok : Bool) (statuses : List Str) (st : PollState)
    (hs : st.entry.status = JobStatus.running)
    (hl : st.trace.getLast? = some JobStatus.running) :
    ((pollLoop ok statuses st).1.trace = st.trace ∧
      (pollLoop ok statuses st).1.entry.status = JobStatus.running) ∨
    ((pollLoop ok statuses st).1.trace = st.trace ++ [JobStatus.completed] ∧
      (pollLoop ok statuses st).1.entry.status = JobStatus.completed ∧
      (pollLoop ok statuses st).2
        = (if ok then none else some ("metadata save failed".data))) := by
  induction statuses generalizing st with
  | nil => exact Or.inl ⟨rfl, hs⟩
  | cons s rest ih =>
    simp only [pollLoop]
    have hcond : ¬ (s = "Running".data ∧ st.entry.status = JobStatus.queued) := by
      rintro ⟨-, h2⟩
      rw [hs] at h2
      cases h2
    rw [if_neg hcond]
    by_cases hsucc : s = "SuccessCriteriaMet".data ∨ s = "Completed".data ∨ s = "Success".data
    · rw [if_pos hsucc]
      have hpush : pushStatus st.trace JobStatus.completed
          = st.trace ++ [JobStatus.completed] := by
        unfold pushStatus
        rw [hl]
        simp
      cases ok
      · exact Or.inr ⟨by simpa using hpush, rfl, rfl⟩
      · exact Or.inr ⟨by simpa using hpush, rfl, rfl⟩
    · rw [if_neg hsucc]
      by_cases hfail : s = "Failed".data ∨ s = "Error".data
      · rw [if_pos hfail]
        exact Or.inl ⟨rfl, hs⟩
      · rw [if_neg hfail]
        exact ih { st with polls := st.polls + 1 } hs hl

/-- From a running entry whose history is queued then running, the status
history after the poll loop and its catch is a subsequence of queued,
running, completed, failed. -/
theorem pollBranchTrace (ok : Bool) (ps : List Str) (st : PollState)
    (hs : st.entry.status = JobStatus.running)
    (hl : st.trace = [JobStatus.queued, JobStatus.running]) :
    List.Sublist (afterPoll (pollLoop ok ps st))
      [JobStatus.queued, JobStatus.running, JobStatus.completed, JobStatus.failed] := by
  have hspec := pollLoop_spec ok ps st hs (by rw [hl]; rfl)
  cases h2 : (pollLoop ok ps st).2 with
  | none =>
    rcases hspec with ⟨htr, -⟩ | ⟨htr, -, -⟩ <;>
      · simp only [afterPoll, h2, htr, hl]
        decide
  | some msg =>
    rcases hspec with ⟨htr, -⟩ | ⟨htr, -, -⟩ <;>
      · simp only [afterPoll, h2, htr, hl, pushStatus]
        decide

/-- From a running entry, if the completed-record write fails and the
history shows completed, the catch has overwritten the entry status with
failed. -/
theorem pollBranchCompleted (ps : List Str) (st : PollState)
    (hs : st.entry.status = JobStatus.running)
    (hl : st.trace = [JobStatus.queued, JobStatus.running])
    (hc : JobStatus.completed ∈ afterPoll (pollLoop false ps st)) :
    (afterPollEntry (pollLoop false ps st)).status = JobStatus.failed := by
  have hspec := pollLoop_spec false ps st hs (by rw [hl]; rfl)
  cases h2 : (pollLoop false ps st).2 with
  | none =>
    rcases hspec with ⟨htr, -⟩ | ⟨-, -, hthr⟩
    · exfalso
      simp only [afterPoll, h2, htr, hl] at hc
      exact (by decide : JobStatus.completed
        ∉ [JobStatus.queued, JobStatus.running]) hc
    · rw [h2] at hthr
      simp at hthr
  | some msg =>
    simp [afterPollEntry, h2]

/-- C1, amended: for every oracle and request, the consecutive-
deduplicated status history of a job in the in-memory Job Registry is a
subsequence of queued, running, completed, failed.  The claimed stronger
form — a subsequence of queued, running, completed or of queued, running,
failed — fails because a storage failure while persisting the completed
record moves the job from completed to failed (see the counterexample);
no other regression is possible. -/
theorem jobStatusTraceMonotone (o : AnalyzeOracle) (req : AnalyzeReq) (jobId : Str)
    (now : Nat) (cfg : ServerConfig) :
    List.Sublist (analyzeHandler o req jobId now cfg).trace
      [JobStatus.queued, JobStatus.running, JobStatus.completed, JobStatus.failed] := by
  rcases o with ⟨tok, sub, nm, sas, ps, sc, scat, stf⟩
  cases tok
  · exact (by decide : List.Sublist
      [JobStatus.queued, JobStatus.running, JobStatus.failed]
      [JobStatus.queued, JobStatus.running, JobStatus.completed, JobStatus.failed])
  · cases sub
    · exact (by decide : List.Sublist
        [JobStatus.queued, JobStatus.running, JobStatus.failed]
        [JobStatus.queued, JobStatus.running, JobStatus.completed, JobStatus.failed])
    · cases sas
      · exact (by decide : List.Sublist
          [JobStatus.queued, JobStatus.running, JobStatus.failed]
          [JobStatus.queued, JobStatus.running, JobStatus.completed, JobStatus.failed])
      · exact pollBranchTrace sc ps _ rfl rfl

/-- C1, counterexample: an execution in which the runner reports success
but the write of the completed metadata record fails produces the registry
status history queued, running, completed, failed, which is a subsequence
of neither queued, running, completed nor queued, running, failed — the
job leaves the terminal completed state. -/
theorem traceRegressionOnFailedCompletedSave :
    (analyzeHandler oSaveCompletedFails reqA ("job1".data) 5 cfgA).trace
      = [JobStatus.queued, JobStatus.running, JobStatus.completed, JobStatus.failed] ∧
    ¬ List.Sublist (analyzeHandler oSaveCompletedFails reqA ("job1".data) 5 cfgA).trace
        [JobStatus.queued, JobStatus.running, JobStatus.completed] ∧
    ¬ List.Sublist (analyzeHandler oSaveCompletedFails reqA ("job1".data) 5 cfgA).trace
        [JobStatus.queued, JobStatus.running, JobStatus.failed] := by
  decide

/-- C3, counterexample: on a fully successful create, the response body
reports status queued, but the registry already holds running at the
moment the response is sent, so a registry read immediately after the
create handler responds does not show queued. -/
theorem createRespondsQueuedButRegistryRunning :
    (analyzeHandler oAllGood reqA ("job1".data) 5 cfgA).respStatus
      = some JobStatus.queued ∧
    (analyzeHandler oAllGood reqA ("job1".data) 5 cfgA).statusAtResponse
      = JobStatus.running ∧
    (analyzeHandler oAllGood reqA ("job1".data) 5 cfgA).statusAtResponse
      ≠ JobStatus.queued := by
  decide

/-- C3, amended: for every create in which token acquisition succeeds,
the job is registered at status queued and the response reports status
queued with a 200, but the transition to running is performed
synchronously inside the handler before the response is sent, so the
registry already shows running (not queued) at the moment the handler
responds. -/
theorem createQueuedResponseRunningRegistry (o : AnalyzeOracle) (req : AnalyzeReq)
    (jobId : Str) (now : Nat) (cfg : ServerConfig) (htok : o.tokenOk = true) :
    (analyzeHandler o req jobId now cfg).respCode = 200 ∧
    (analyzeHandler o req jobId now cfg).respStatus = some JobStatus.queued ∧
    (analyzeHandler o req jobId now cfg).statusAtResponse = JobStatus.running := by
  rcases o with ⟨tok, sub, nm, sas, ps, sc, scat, stf⟩
  cases tok
  · exact absurd htok (by simp)
  · cases sub
    · exact ⟨rfl, rfl, rfl⟩
    · cases sas
      · exact ⟨rfl, rfl, rfl⟩
      · exact ⟨rfl, rfl, rfl⟩

/-- Witness for the amended C3 at a concrete successful create. -/
theorem createQueuedResponseRunningRegistry_witness :
    (analyzeHandler oAllGood reqA ("job2".data) 6 cfgA).respCode = 200 ∧
    (analyzeHandler oAllGood reqA ("job2".data) 6 cfgA).respStatus
      = some JobStatus.queued ∧
    (analyzeHandler oAllGood reqA ("job2".data) 6 cfgA).statusAtResponse
      = JobStatus.running :=
  createQueuedResponseRunningRegistry oAllGood reqA ("job2".data) 6 cfgA rfl

/-- C4, counterexample: when credential acquisition fails, the create
request is answered with status code 400, not the claimed 500. -/
theorem tokenFailureAnswers400 :
    (analyzeHandler oTokenFail reqA ("job1".data) 5 cfgA).respCode = 400 ∧
    (analyzeHandler oTokenFail reqA ("job1".data) 5 cfgA).respCode ≠ 500 := by
  decide

/-- C4, amended: for every create in which credential acquisition fails,
the job status is set to failed with the descriptive error message, the
failed metadata record write is attempted (succeeding whenever the store
accepts it), no task submission and no polling follows, and the create
request is answered with a 400 status code (not 500). -/
theorem tokenFailureBehavior (o : AnalyzeOracle) (req : AnalyzeReq)
    (jobId : Str) (now : Nat) (cfg : ServerConfig) (htok : o.tokenOk = false) :
    (analyzeHandler o req jobId now cfg).respCode = 400 ∧
    (analyzeHandler o req jobId now cfg).finalEntry.status = JobStatus.failed ∧
    (analyzeHandler o req jobId now cfg).finalEntry.error
      = some ("Invalid OSC token or service unavailable".data) ∧
    (analyzeHandler o req jobId now cfg).saves
      = [(JobStatus.failed, o.saveTokenFailOk)] ∧
    (analyzeHandler o req jobId now cfg).submitAttempted = false ∧
    (analyzeHandler o req jobId now cfg).pollCount = 0 := by
  rcases o with ⟨tok, sub, nm, sas, ps, sc, scat, stf⟩
  cases tok
  · exact ⟨rfl, rfl, rfl, rfl, rfl, rfl⟩
  · exact absurd htok (by simp)

/-- Witness for the amended C4 at a concrete failing-token create. -/
theorem tokenFailureBehavior_witness :
    (analyzeHandler oTokenFail reqA ("job4".data) 8 cfgA).respCode = 400 ∧
    (analyzeHandler oTokenFail reqA ("job4".data) 8 cfgA).finalEntry.status
      = JobStatus.failed ∧
    (analyzeHandler oTokenFail reqA ("job4".data) 8 cfgA).finalEntry.error
      = some ("Invalid OSC token or service unavailable".data) ∧
    (analyzeHandler oTokenFail reqA ("job4".data) 8 cfgA).saves
      = [(JobStatus.failed, oTokenFail.saveTokenFailOk)] ∧
    (analyzeHandler oTokenFail reqA ("job4".data) 8 cfgA).submitAttempted = false ∧
    (analyzeHandler oTokenFail reqA ("job4".data) 8 cfgA).pollCount = 0 :=
  tokenFailureBehavior oTokenFail reqA ("job4".data) 8 cfgA rfl

/-- C5, counterexample: when the metadata write persisting the completed
transition fails, the in-memory status does not stay completed — the
outer catch of the background task overwrites it with failed. -/
theorem completedSaveFailureFlipsStatus :
    JobStatus.completed
      ∈ (analyzeHandler oPollSaveFails reqA ("job1".data) 5 cfgA).trace ∧
    (analyzeHandler oPollSaveFails reqA ("job1".data) 5 cfgA).finalEntry.status
      = JobStatus.failed ∧
    JobStatus.failed ≠ JobStatus.completed := by
  decide

/-- C5, amended: metadata-write failures inside the dedicated catch
branches (the failed-record writes of the token-failure path and of the
outer catch) are caught and logged and never alter the registry history
or entry; but a failure of the write persisting the completed transition
escapes to the outer catch, which overwrites the in-memory status with
failed instead of leaving it unchanged. -/
theorem saveFailureEffects :
    (∀ (o : AnalyzeOracle) (req : AnalyzeReq) (jobId : Str) (now : Nat)
        (cfg : ServerConfig) (b c : Bool),
        (analyzeHandler { o with saveCatchOk := b, saveTokenFailOk := c }
            req jobId now cfg).trace
          = (analyzeHandler o req jobId now cfg).trace ∧
        (analyzeHandler { o with saveCatchOk := b, saveTokenFailOk := c }
            req jobId now cfg).finalEntry
          = (analyzeHandler o req jobId now cfg).finalEntry) ∧
    (∀ (o : AnalyzeOracle) (req : AnalyzeReq) (jobId : Str) (now : Nat)
        (cfg : ServerConfig),
        o.saveCompletedOk = false →
        JobStatus.completed ∈ (analyzeHandler o req jobId now cfg).trace →
        (analyzeHandler o req jobId now cfg).finalEntry.status = JobStatus.failed) := by
  constructor
  · intro o req jobId now cfg b c
    rcases o with ⟨tok, sub, nm, sas, ps, sc, scat, stf⟩
    cases tok
    · exact ⟨rfl, rfl⟩
    · cases sub
      · exact ⟨rfl, rfl⟩
      · cases sas
        · exact ⟨rfl, rfl⟩
        · exact ⟨rfl, rfl⟩
  · intro o req jobId now cfg hok hc
    rcases o with ⟨tok, sub, nm, sas, ps, sc, scat, stf⟩
    cases sc
    · cases tok
      · exact rfl
      · cases sub
        · exact rfl
        · cases sas
          · exact rfl
          · exact pollBranchCompleted ps _ rfl rfl hc
    · exact absurd hok (by simp)

/-- Witness for the amended C5 at a concrete run whose completed-record
write fails. -/
theorem saveFailureEffects_witness :
    (analyzeHandler oPollSaveFails reqA ("job3".data) 7 cfgA).finalEntry.status
      = JobStatus.failed :=
  saveFailureEffects.2 oPollSaveFails reqA ("job3".data) 7 cfgA rfl (by decide)

/-- A first-occurrence removal of a pattern that sits at the front of the
string removes exactly that front copy. -/
theorem removeFirstOcc_cons_append (p : Char) (ps rest : Str) :
    removeFirstOcc (p :: ps) ((p :: ps) ++ rest) = rest := by
  show removeFirstOcc (p :: ps) (p :: (ps ++ rest)) = rest
  unfold removeFirstOcc
  rw [if_pos]
  · simp
  · simp [List.take_left]

/-- If the identifier holds no dot, the first occurrence of the dot json
suffix in identifier-plus-suffix is the final one, so removing it yields
the identifier back. -/
theorem removeFirstOcc_dotjson (id : Str) (h : '.' ∉ id) :
    removeFirstOcc (".json".data) (id ++ ".json".data) = id := by
  induction id with
  | nil => simpa using removeFirstOcc_cons_append '.' ("json".data) []
  | cons a id' ih =>
    have ha : a ≠ '.' := fun hh => h (hh ▸ List.mem_cons_self a id')
    show removeFirstOcc (".json".data) (a :: (id' ++ ".json".data)) = a :: id'
    unfold removeFirstOcc
    rw [if_neg, ih (fun hm => h (List.mem_cons_of_mem a hm))]
    intro hcond
    rw [show ((".json".data : Str)).length = 5 from rfl, List.take_succ_cons] at hcond
    injection hcond with h1 h2
    exact ha h1

/-- C8: for every bucket whose keys under the jobs prefix have the record
shape jobs slash identifier dot json (with no dot inside the identifier,
as all identifiers the server generates), listing jobs never fails as a
whole — an enumeration error yields the empty list — and otherwise
returns exactly the records that load successfully (corrupt or missing
objects silently skipped), as a permutation sorted by creation time,
newest first. -/
theorem listJobMetaSpec (objects : Str → Option JobMeta) (bucket : Str)
    (keys : List Str)
    (hk : ∀ k ∈ keys, ∃ id : Str,
        k = "jobs/".data ++ (id ++ ".json".data) ∧ '.' ∉ id) :
    listJobMeta objects bucket none = [] ∧
    List.Perm (listJobMeta objects bucket (some keys))
      (keys.filterMap (fun k => (objects k).map (withBucket bucket))) ∧
    List.Sorted (fun a b => b.createdAt ≤ a.createdAt)
      (listJobMeta objects bucket (some keys)) := by
  have hcol : (keys.filterMap (fun k =>
      if (".json".data) <:+ k then
        loadJobMeta objects bucket
          (removeFirstOcc (".json".data) (removeFirstOcc ("jobs/".data) k))
      else none))
      = keys.filterMap (fun k => (objects k).map (withBucket bucket)) := by
    apply List.filterMap_congr
    intro k hkmem
    obtain ⟨id, hkeq, hdot⟩ := hk k hkmem
    subst hkeq
    rw [if_pos ⟨"jobs/".data ++ id, by simp⟩]
    have h1 : removeFirstOcc ("jobs/".data) ("jobs/".data ++ (id ++ ".json".data))
        = id ++ ".json".data := removeFirstOcc_cons_append 'j' ("obs/".data) _
    rw [h1, removeFirstOcc_dotjson id hdot]
    simp [loadJobMeta, List.append_assoc]
  refine ⟨rfl, ?_, ?_⟩
  · simp only [listJobMeta]
    rw [hcol]
    exact List.perm_insertionSort _ _
  · simp only [listJobMeta]
    exact List.sorted_insertionSort _ _

/-- Witness for C8 at a concrete store: four listed keys of which one
fails to load give exactly the three loadable records, newest first. -/
theorem listJobMetaSpec_witness :
    List.Perm (listJobMeta c8Objects ("demo".data) (some c8Keys))
      (c8Keys.filterMap (fun k => (c8Objects k).map (withBucket ("demo".data)))) ∧
    List.Sorted (fun a b => b.createdAt ≤ a.createdAt)
      (listJobMeta c8Objects ("demo".data) (some c8Keys)) ∧
    listJobMeta c8Objects ("demo".data) (some c8Keys)
      = [sampleMeta ("job300".data) 300, sampleMeta ("job200".data) 200,
         sampleMeta ("job100".data) 100] := by
  have hk : ∀ k ∈ c8Keys, ∃ id : Str,
      k = "jobs/".data ++ (id ++ ".json".data) ∧ '.' ∉ id := by
    intro k hkmem
    simp only [c8Keys, List.mem_cons, List.not_mem_nil, or_false] at hkmem
    rcases hkmem with h | h | h | h <;> subst h
    · exact ⟨"job300".data, by decide, by decide⟩
    · exact ⟨"job100".data, by decide, by decide⟩
    · exact ⟨"job200".data, by decide, by decide⟩
    · exact ⟨"job400".data, by decide, by decide⟩
  have h := listJobMetaSpec c8Objects ("demo".data) c8Keys hk
  exact ⟨h.2.1, h.2.2, by decide⟩

/-- The raw-result delete is attempted exactly when a metadata record was
found that carries a truthy external job name and a non-empty result
key. -/
theorem resultDeleteKeyOf_isSome (md : Option JobMeta) :
    (resultDeleteKeyOf md).isSome = true ↔
      ∃ m, md = some m ∧ (∃ n, jsTruthy m.oscJobName = some n) ∧ m.resultKey ≠ [] := by
  cases md with
  | none => simp [resultDeleteKeyOf]
  | some m =>
    simp only [resultDeleteKeyOf]
    cases hn : jsTruthy m.oscJobName with
    | none => simp [hn]
    | some n =>
      by_cases hrk : m.resultKey = []
      · simp [hn, hrk]
      · simp [hn, hrk]

/-- C9: delete-job is idempotent and best-effort.  For every registry,
store, bucket choice, and any combination of storage-delete failures, the
response is a success with code 200, the in-memory entry is removed, the
raw-result delete is attempted exactly when metadata with a truthy
external job name and result key is found, the metadata object is removed
whenever its delete succeeds, and a second delete of the same identifier
(on the post-delete state, with metadata already gone) again answers a
success rather than a 500. -/
theorem deleteJobIdempotentBestEffort (registry : Str → Option MemJob)
    (objects : Str → Str → Option JobMeta) (configBucket : Str)
    (queryBucket queryBucket2 : Option Str) (dr dm dr2 dm2 : Bool) (jobId : Str) :
    (deleteJobHandler registry objects configBucket queryBucket dr dm jobId).code = 200 ∧
    (deleteJobHandler registry objects configBucket queryBucket dr dm jobId).success = true ∧
    (deleteJobHandler registry objects configBucket queryBucket dr dm jobId).registry jobId
      = none ∧
    ((deleteJobHandler registry objects configBucket queryBucket dr dm jobId).attemptedResultDelete
        = true ↔
      ∃ m, loadJobMeta
          (objects (deleteJobHandler registry objects configBucket queryBucket dr dm jobId).searchBucket)
          (deleteJobHandler registry objects configBucket queryBucket dr dm jobId).searchBucket
          jobId = some m ∧
        (∃ n, jsTruthy m.oscJobName = some n) ∧ m.resultKey ≠ []) ∧
    (dm = true →
      (deleteJobHandler registry objects configBucket queryBucket dr dm jobId).objects
        (deleteJobHandler registry objects configBucket queryBucket dr dm jobId).deleteBucket
        ("jobs/".data ++ jobId ++ ".json".data) = none) ∧
    (deleteJobHandler
        (deleteJobHandler registry objects configBucket queryBucket dr dm jobId).registry
        (deleteJobHandler registry objects configBucket queryBucket dr dm jobId).objects
        configBucket queryBucket2 dr2 dm2 jobId).code = 200 ∧
    (deleteJobHandler
        (deleteJobHandler registry objects configBucket queryBucket dr dm jobId).registry
        (deleteJobHandler registry objects configBucket queryBucket dr dm jobId).objects
        configBucket queryBucket2 dr2 dm2 jobId).success = true := by
  refine ⟨rfl, rfl, by simp [deleteJobHandler], resultDeleteKeyOf_isSome _, ?_, rfl, rfl⟩
  intro hdm
  subst hdm
  simp [deleteJobHandler]

/-- Witness for C9 at a concrete state: deleting job171 removes its
metadata object from the store. -/
theorem deleteJobIdempotentBestEffort_witness :
    (deleteJobHandler c2Registry1 (fun _ => c2Objects) ("vmaf-files".data)
        none true true ("job171".data)).objects
      (deleteJobHandler c2Registry1 (fun _ => c2Objects) ("vmaf-files".data)
        none true true ("job171".data)).deleteBucket
      ("jobs/".data ++ "job171".data ++ ".json".data) = none :=
  ((deleteJobIdempotentBestEffort c2Registry1 (fun _ => c2Objects) ("vmaf-files".data)
      none none true true true true ("job171".data)).2.2.2.2.1) rfl
